import Mathlib

/-!
# Verification of the capture/geometry utilities (`src/utils/system_utils.py`)

Shallow embedding of the parts of `system_utils.py` that the claims are
about:

* `ScreenCapture` — the cached screen-capture resource manager.  The native
  win32 world is modelled by a `World` record (a fresh-handle counter, the
  multiset of outstanding native handles, and an event trace) together with
  an `Oracle : Nat → Bool` deciding whether each successive native call
  succeeds or raises.  Python exceptions are modelled by the failing branch
  of each call; `try/except` blocks become explicit control flow.
* `rect_intersection`, `clamp_rect_to_screen`, `get_screen_resolution` —
  pure rectangle geometry (integers, as in the source).
* `PerformanceMonitor` — the rolling frame-time window, with the clock an
  explicit rational argument to `tick`.
-/

/-- A rectangle `(left, top, right, bottom)` in integer screen coordinates. -/
abbrev Rect := ℤ × ℤ × ℤ × ℤ

/-- `rect_intersection` from the source: componentwise max/min, returning
`none` unless the strict condition `left < right and top < bottom` holds. -/
def rect_intersection (rect1 rect2 : Rect) : Option Rect :=
  let left := max rect1.1 rect2.1
  let top := max rect1.2.1 rect2.2.1
  let right := min rect1.2.2.1 rect2.2.2.1
  let bottom := min rect1.2.2.2 rect2.2.2.2
  if left < right ∧ top < bottom then some (left, top, right, bottom)
  else none

/-- `get_screen_resolution` from the source: the metrics query may fail, in
which case the fallback `(1920, 1080)` is returned.  The query result is the
explicit argument `q` (`none` models the exception branch). -/
def get_screen_resolution (q : Option (ℤ × ℤ)) : ℤ × ℤ :=
  q.getD (1920, 1080)

/-- `clamp_rect_to_screen` from the source: clamp each edge against the
current screen resolution. -/
def clamp_rect_to_screen (q : Option (ℤ × ℤ)) (rect : Rect) : Rect :=
  let sw := (get_screen_resolution q).1
  let sh := (get_screen_resolution q).2
  (max 0 rect.1, max 0 rect.2.1, min sw rect.2.2.1, min sh rect.2.2.2)

/-- The kind of a native handle held by the capture manager. -/
inductive HKind : Type
  | hwindcK
  | srcdcK
  | memdcK
  | bmpK
deriving DecidableEq, Repr

/-- Events recorded by the native world: successful acquisitions and
releases, failed release attempts, and entries into `_cleanup` and
`_initialize_dc`. -/
inductive Ev : Type
  | acq (k : HKind) (h : ℕ)
  | rel (k : HKind) (h : ℕ)
  | relFail (k : HKind) (h : ℕ)
  | cleanupEv
  | initEv
deriving DecidableEq, Repr

/-- The native (win32) world: how many native calls happened so far, the
next fresh handle, the list of currently outstanding native handles, and the
event trace. -/
structure World : Type where
  calls : ℕ
  nextH : ℕ
  outstanding : List ℕ
  trace : List Ev
deriving DecidableEq, Repr

/-- The world before any native call. -/
def World.fresh : World := ⟨0, 0, [], []⟩

/-- An oracle decides, per native call (indexed by `World.calls`), whether
the call succeeds (`true`) or raises (`false`). -/
def Oracle : Type := ℕ → Bool

/-- The oracle under which every native call succeeds. -/
def allOk : Oracle := fun _ => true

/-- The oracle under which exactly the `k`-th native call fails. -/
def failAt (k : ℕ) : Oracle := fun n => n != k

/-- Perform one native call: consult the oracle and advance the counter. -/
def World.step (o : Oracle) (w : World) : Bool × World :=
  (o w.calls, { w with calls := w.calls + 1 })

/-- Append an event to the trace. -/
def World.addEv (w : World) (e : Ev) : World :=
  { w with trace := w.trace ++ [e] }

/-- A fallible native call that, on success, acquires a fresh handle of kind
`k` (models `GetWindowDC` / `CreateDCFromHandle` / `CreateCompatibleDC`). -/
def World.acquire (o : Oracle) (w : World) (k : HKind) : Option ℕ × World :=
  let (ok, w1) := World.step o w
  if ok then
    (some w1.nextH,
      { w1 with
        nextH := w1.nextH + 1
        outstanding := w1.outstanding ++ [w1.nextH]
        trace := w1.trace ++ [Ev.acq k w1.nextH] })
  else (none, w1)

/-- A fallible native release of handle `h` (models `DeleteDC` /
`ReleaseDC` / `DeleteObject`).  On failure (the call raises) the handle is
not removed from the outstanding list. -/
def World.releaseOne (o : Oracle) (w : World) (k : HKind) (h : ℕ) : Bool × World :=
  let (ok, w1) := World.step o w
  if ok then
    (true, { w1 with
      outstanding := w1.outstanding.erase h
      trace := w1.trace ++ [Ev.rel k h] })
  else (false, { w1 with trace := w1.trace ++ [Ev.relFail k h] })

/-- The guarded release `if self.x: self.x.Delete...()`: a `none` field is
skipped (no native call), a `some` field is released. -/
def World.relOpt (o : Oracle) (w : World) (k : HKind) : Option ℕ → Bool × World
  | none => (true, w)
  | some h => World.releaseOne o w k h

/-- The state of one `ScreenCapture` instance: the four handle fields, the
`_initialized` flag, and the remembered box and dimensions.  Fields are
`Option ℕ` because the source initialises them to `None` and never resets
them to `None` after a release (stale handles remain stored). -/
structure ScreenCapture : Type where
  hwindc : Option ℕ
  srcdc : Option ℕ
  memdc : Option ℕ
  bmp : Option ℕ
  initialized : Bool
  last_bbox : Option Rect
  last_width : ℤ
  last_height : ℤ
deriving DecidableEq, Repr

/-- `ScreenCapture.__init__`. -/
def ScreenCapture.new : ScreenCapture :=
  ⟨none, none, none, none, false, none, 0, 0⟩

/-- `ScreenCapture._cleanup`: one `try` block releasing, in the source's
order, `srcdc`, `memdc`, `hwindc`, `bmp`; a raising release aborts the
remaining releases (the `except` swallows it); `_initialized` is set to
`False` afterwards in every case.  Handle fields are *not* cleared. -/
def ScreenCapture.cleanup (o : Oracle) (sc : ScreenCapture) (w : World) :
    ScreenCapture × World :=
  let w0 := w.addEv Ev.cleanupEv
  let sc' := { sc with initialized := false }
  let (ok1, w1) := World.relOpt o w0 HKind.srcdcK sc.srcdc
  if ok1 then
    let (ok2, w2) := World.relOpt o w1 HKind.memdcK sc.memdc
    if ok2 then
      let (ok3, w3) := World.relOpt o w2 HKind.hwindcK sc.hwindc
      if ok3 then
        let (_, w4) := World.relOpt o w3 HKind.bmpK sc.bmp
        (sc', w4)
      else (sc', w3)
    else (sc', w2)
  else (sc', w1)

/-- `ScreenCapture._initialize_dc`: acquire the window DC, the source DC and
the memory DC, create the bitmap object, create its compatible native
bitmap, select it; each step is a fallible native call, and any failure
funnels through `_cleanup` and returns `False`.  On success the flag and the
remembered dimensions are set. -/
def ScreenCapture.initialize_dc (o : Oracle) (sc : ScreenCapture) (w : World)
    (width height : ℤ) : Bool × ScreenCapture × World :=
  let w0 := w.addEv Ev.initEv
  match World.acquire o w0 HKind.hwindcK with
  | (none, w1) =>
    let (sc1, w2) := ScreenCapture.cleanup o sc w1
    (false, sc1, w2)
  | (some h1, w1) =>
    let sc1 := { sc with hwindc := some h1 }
    match World.acquire o w1 HKind.srcdcK with
    | (none, w2) =>
      let (sc2, w3) := ScreenCapture.cleanup o sc1 w2
      (false, sc2, w3)
    | (some h2, w2) =>
      let sc2 := { sc1 with srcdc := some h2 }
      match World.acquire o w2 HKind.memdcK with
      | (none, w3) =>
        let (sc3, w4) := ScreenCapture.cleanup o sc2 w3
        (false, sc3, w4)
      | (some h3, w3) =>
        let sc3 := { sc2 with memdc := some h3 }
        -- win32ui.CreateBitmap(): a fallible call producing the bitmap
        -- object (no native surface yet).
        let (ok4, w4) := World.step o w3
        if ok4 then
          let bmpId := w4.nextH
          let w5 := { w4 with nextH := w4.nextH + 1 }
          let sc4 := { sc3 with bmp := some bmpId }
          -- bmp.CreateCompatibleBitmap(srcdc, width, height): acquires the
          -- native bitmap surface.
          let (ok5, w6) := World.step o w5
          if ok5 then
            let w7 := { w6 with
              outstanding := w6.outstanding ++ [bmpId]
              trace := w6.trace ++ [Ev.acq HKind.bmpK bmpId] }
            -- memdc.SelectObject(bmp): fallible, no resource change.
            let (ok6, w8) := World.step o w7
            if ok6 then
              (true,
                { sc4 with
                  initialized := true
                  last_width := width
                  last_height := height }, w8)
            else
              let (sc5, w9) := ScreenCapture.cleanup o sc4 w8
              (false, sc5, w9)
          else
            let (sc5, w7) := ScreenCapture.cleanup o sc4 w6
            (false, sc5, w7)
        else
          let (sc4, w5) := ScreenCapture.cleanup o sc3 w4
          (false, sc4, w5)

/-- The converted frame returned to the caller; the claims only inspect
success/failure and dimensions, so a frame is its `(width, height)`. -/
abbrev Frame := ℤ × ℤ

/-- The `try` block of `capture`: `BitBlt` then `GetBitmapBits`, each a
fallible native call; `frombuffer`/`reshape`/`cvtColor` are pure.  Any
failure runs `_cleanup` and returns `None`. -/
def ScreenCapture.captureBlit (o : Oracle) (sc : ScreenCapture) (w : World)
    (width height : ℤ) : Option Frame × ScreenCapture × World :=
  let (ok1, w1) := World.step o w
  if ok1 then
    let (ok2, w2) := World.step o w1
    if ok2 then (some (width, height), sc, w2)
    else
      let (sc1, w3) := ScreenCapture.cleanup o sc w2
      (none, sc1, w3)
  else
    let (sc1, w2) := ScreenCapture.cleanup o sc w1
    (none, sc1, w2)

/-- `ScreenCapture.capture`: reject an absent or degenerate box; release and
re-remember on any mismatch with the cached session; lazily initialise; then
blit and read back. -/
def ScreenCapture.capture (o : Oracle) (sc : ScreenCapture) (w : World)
    (bbox : Option Rect) : Option Frame × ScreenCapture × World :=
  match bbox with
  | none => (none, sc, w)
  | some box =>
    let width := box.2.2.1 - box.1
    let height := box.2.2.2 - box.2.1
    if width ≤ 0 ∨ height ≤ 0 then (none, sc, w)
    else
      let (sc1, w1) :=
        if sc.last_bbox ≠ some box ∨ sc.initialized = false ∨
            width ≠ sc.last_width ∨ height ≠ sc.last_height then
          let (sc0, w0) := ScreenCapture.cleanup o sc w
          ({ sc0 with last_bbox := some box }, w0)
        else (sc, w)
      if sc1.initialized then ScreenCapture.captureBlit o sc1 w1 width height
      else
        match ScreenCapture.initialize_dc o sc1 w1 width height with
        | (true, sc2, w2) => ScreenCapture.captureBlit o sc2 w2 width height
        | (false, sc2, w2) => (none, sc2, w2)

/-- `ScreenCapture.close`: just `_cleanup`. -/
def ScreenCapture.close (o : Oracle) (sc : ScreenCapture) (w : World) :
    ScreenCapture × World :=
  ScreenCapture.cleanup o sc w

/-- Iterated capture with a fixed requested box (the returned frames are
discarded; only the evolving state matters). -/
def captureN (o : Oracle) (bbox : Option Rect) :
    ℕ → ScreenCapture × World → ScreenCapture × World
  | 0, s => s
  | n + 1, s =>
    let r := ScreenCapture.capture o s.1 s.2 bbox
    captureN o bbox n (r.2.1, r.2.2)

/-- Iterated `close`. -/
def closeN (o : Oracle) : ℕ → ScreenCapture × World → ScreenCapture × World
  | 0, s => s
  | n + 1, s => closeN o n (ScreenCapture.close o s.1 s.2)

/-- Number of `_initialize_dc` entries recorded in a trace. -/
def countInit (tr : List Ev) : ℕ := tr.count Ev.initEv

/-- Number of `_cleanup` entries recorded in a trace. -/
def countCleanup (tr : List Ev) : ℕ := tr.count Ev.cleanupEv

/-- The kinds of the successfully acquired handles, in trace order. -/
def acqKinds (tr : List Ev) : List HKind :=
  tr.filterMap fun e =>
    match e with
    | Ev.acq k _ => some k
    | _ => none

/-- The kinds of the successfully released handles, in trace order. -/
def relKinds (tr : List Ev) : List HKind :=
  tr.filterMap fun e =>
    match e with
    | Ev.rel k _ => some k
    | _ => none

/-- `PerformanceMonitor` state: window size, stored frame-time samples
(seconds, as rationals), and the last tick's timestamp. -/
structure PerformanceMonitor : Type where
  window_size : ℕ
  frame_times : List ℚ
  last_time : Option ℚ
deriving DecidableEq, Repr

/-- `PerformanceMonitor.__init__`. -/
def PerformanceMonitor.new (window_size : ℕ) : PerformanceMonitor :=
  ⟨window_size, [], none⟩

/-- `PerformanceMonitor.tick`, with the clock reading `t` passed in: on the
first call record the timestamp only; afterwards append the elapsed time and
pop the front sample when the window overflows. -/
def PerformanceMonitor.tick (pm : PerformanceMonitor) (t : ℚ) : PerformanceMonitor :=
  match pm.last_time with
  | none => { pm with last_time := some t }
  | some lt =>
    let ft := pm.frame_times ++ [t - lt]
    let ft' := if pm.window_size < ft.length then ft.tail else ft
    { pm with frame_times := ft', last_time := some t }

/-- `PerformanceMonitor.get_fps`: `0` with no samples; otherwise the
reciprocal of the mean frame time, guarded against a non-positive mean. -/
def PerformanceMonitor.get_fps (pm : PerformanceMonitor) : ℚ :=
  if pm.frame_times = [] then 0
  else
    let avg := pm.frame_times.sum / (pm.frame_times.length : ℚ)
    if 0 < avg then 1 / avg else 0

/-- `PerformanceMonitor.get_frame_time_ms`: `0` with no samples; otherwise
the mean frame time in milliseconds. -/
def PerformanceMonitor.get_frame_time_ms (pm : PerformanceMonitor) : ℚ :=
  if pm.frame_times = [] then 0
  else (pm.frame_times.sum / (pm.frame_times.length : ℚ)) * 1000

/-! ## Helper lemmas: canonical capture runs -/

/-- The manager state after the first successful capture of `box` from a
fresh instance: handles `0`–`3`, initialized, box and dimensions cached. -/
def scA (box : Rect) : ScreenCapture :=
  ⟨some 0, some 1, some 2, some 3, true, some box, box.2.2.1 - box.1, box.2.2.2 - box.2.1⟩

/-- The trace of the first successful capture from a fresh instance. -/
def traceA : List Ev :=
  [Ev.cleanupEv, Ev.initEv, Ev.acq HKind.hwindcK 0, Ev.acq HKind.srcdcK 1,
   Ev.acq HKind.memdcK 2, Ev.acq HKind.bmpK 3]

/-- The world after the first successful capture from a fresh instance. -/
def wA : World := ⟨8, 4, [0, 1, 2, 3], traceA⟩

/-- The events of one `_cleanup` releasing handles `0`–`3` (in the source's
release order: source DC, memory DC, window DC, bitmap). -/
def relTrace : List Ev :=
  [Ev.cleanupEv, Ev.rel HKind.srcdcK 1, Ev.rel HKind.memdcK 2,
   Ev.rel HKind.hwindcK 0, Ev.rel HKind.bmpK 3]

/-- The manager state after a rebuild that allocated handles `4`–`7`. -/
def scB (box : Rect) : ScreenCapture :=
  ⟨some 4, some 5, some 6, some 7, true, some box, box.2.2.1 - box.1, box.2.2.2 - box.2.1⟩

/-- The events of one release-and-rebuild: a `_cleanup` of handles `0`–`3`
followed by an `_initialize_dc` acquiring handles `4`–`7`. -/
def traceB2 : List Ev :=
  [Ev.cleanupEv, Ev.rel HKind.srcdcK 1, Ev.rel HKind.memdcK 2,
   Ev.rel HKind.hwindcK 0, Ev.rel HKind.bmpK 3, Ev.initEv,
   Ev.acq HKind.hwindcK 4, Ev.acq HKind.srcdcK 5, Ev.acq HKind.memdcK 6,
   Ev.acq HKind.bmpK 7]

/-- The manager state after a blit/readback failure invalidated the session
built from a fresh instance: stale handle fields, uninitialized. -/
def scFail (box : Rect) : ScreenCapture :=
  ⟨some 0, some 1, some 2, some 3, false, some box, box.2.2.1 - box.1, box.2.2.2 - box.2.1⟩

theorem capture_absent (o : Oracle) (sc : ScreenCapture) (w : World) :
    ScreenCapture.capture o sc w none = (none, sc, w) := rfl

theorem capture_degenerate (o : Oracle) (sc : ScreenCapture) (w : World)
    (l t r b : ℤ) (h : r ≤ l ∨ b ≤ t) :
    ScreenCapture.capture o sc w (some (l, t, r, b)) = (none, sc, w) := by
  have hw : r - l ≤ 0 ∨ b - t ≤ 0 := by omega
  simp only [ScreenCapture.capture]
  rw [if_pos hw]

theorem first_capture (l t r b : ℤ) (hl : l < r) (ht : t < b) :
    ScreenCapture.capture allOk ScreenCapture.new World.fresh (some (l, t, r, b)) =
      (some (r - l, b - t), scA (l, t, r, b), wA) := by
  have hw : ¬(r - l ≤ 0 ∨ b - t ≤ 0) := by omega
  have hmis : ScreenCapture.new.last_bbox ≠ some (l, t, r, b) ∨
      ScreenCapture.new.initialized = false ∨
      r - l ≠ ScreenCapture.new.last_width ∨ b - t ≠ ScreenCapture.new.last_height :=
    Or.inl (by simp [ScreenCapture.new])
  simp only [ScreenCapture.capture]
  rw [if_neg hw, if_pos hmis]
  rfl

theorem steady_capture (l t r b : ℤ) (hl : l < r) (ht : t < b) (w : World) :
    ScreenCapture.capture allOk (scA (l, t, r, b)) w (some (l, t, r, b)) =
      (some (r - l, b - t), scA (l, t, r, b), { w with calls := w.calls + 2 }) := by
  have hw : ¬(r - l ≤ 0 ∨ b - t ≤ 0) := by omega
  have hmis : ¬((scA (l, t, r, b)).last_bbox ≠ some (l, t, r, b) ∨
      (scA (l, t, r, b)).initialized = false ∨
      r - l ≠ (scA (l, t, r, b)).last_width ∨ b - t ≠ (scA (l, t, r, b)).last_height) := by
    simp [scA]
  simp only [ScreenCapture.capture]
  rw [if_neg hw, if_neg hmis]
  rfl

theorem switch_capture (l t r b l2 t2 r2 b2 : ℤ) (m : ℕ)
    (hl2 : l2 < r2) (ht2 : t2 < b2)
    (hne : ((l, t, r, b) : Rect) ≠ (l2, t2, r2, b2)) :
    ScreenCapture.capture allOk (scA (l, t, r, b)) ⟨m, 4, [0, 1, 2, 3], traceA⟩
        (some (l2, t2, r2, b2)) =
      (some (r2 - l2, b2 - t2), scB (l2, t2, r2, b2),
        ⟨m + 12, 8, [4, 5, 6, 7], traceA ++ traceB2⟩) := by
  have hw : ¬(r2 - l2 ≤ 0 ∨ b2 - t2 ≤ 0) := by omega
  have hmis : (scA (l, t, r, b)).last_bbox ≠ some (l2, t2, r2, b2) ∨
      (scA (l, t, r, b)).initialized = false ∨
      r2 - l2 ≠ (scA (l, t, r, b)).last_width ∨
      b2 - t2 ≠ (scA (l, t, r, b)).last_height :=
    Or.inl fun hcon => hne (Option.some.inj hcon)
  simp only [ScreenCapture.capture]
  rw [if_neg hw, if_pos hmis]
  rfl

theorem blit_fail_capture (l t r b : ℤ) (hl : l < r) (ht : t < b) :
    ScreenCapture.capture (failAt 8) (scA (l, t, r, b)) wA (some (l, t, r, b)) =
      (none, scFail (l, t, r, b), ⟨13, 4, [], traceA ++ relTrace⟩) := by
  have hw : ¬(r - l ≤ 0 ∨ b - t ≤ 0) := by omega
  have hmis : ¬((scA (l, t, r, b)).last_bbox ≠ some (l, t, r, b) ∨
      (scA (l, t, r, b)).initialized = false ∨
      r - l ≠ (scA (l, t, r, b)).last_width ∨ b - t ≠ (scA (l, t, r, b)).last_height) := by
    simp [scA]
  simp only [ScreenCapture.capture]
  rw [if_neg hw, if_neg hmis]
  rfl

theorem bits_fail_capture (l t r b : ℤ) (hl : l < r) (ht : t < b) :
    ScreenCapture.capture (failAt 9) (scA (l, t, r, b)) wA (some (l, t, r, b)) =
      (none, scFail (l, t, r, b), ⟨14, 4, [], traceA ++ relTrace⟩) := by
  have hw : ¬(r - l ≤ 0 ∨ b - t ≤ 0) := by omega
  have hmis : ¬((scA (l, t, r, b)).last_bbox ≠ some (l, t, r, b) ∨
      (scA (l, t, r, b)).initialized = false ∨
      r - l ≠ (scA (l, t, r, b)).last_width ∨ b - t ≠ (scA (l, t, r, b)).last_height) := by
    simp [scA]
  simp only [ScreenCapture.capture]
  rw [if_neg hw, if_neg hmis]
  rfl

theorem rebuild_capture (l t r b : ℤ) (m : ℕ) (hl : l < r) (ht : t < b) :
    ScreenCapture.capture allOk (scFail (l, t, r, b))
        ⟨m, 4, [], traceA ++ relTrace⟩ (some (l, t, r, b)) =
      (some (r - l, b - t), scB (l, t, r, b),
        ⟨m + 12, 8, [4, 5, 6, 7], traceA ++ relTrace ++ traceB2⟩) := by
  have hw : ¬(r - l ≤ 0 ∨ b - t ≤ 0) := by omega
  have hmis : (scFail (l, t, r, b)).last_bbox ≠ some (l, t, r, b) ∨
      (scFail (l, t, r, b)).initialized = false ∨
      r - l ≠ (scFail (l, t, r, b)).last_width ∨
      b - t ≠ (scFail (l, t, r, b)).last_height := Or.inr (Or.inl rfl)
  simp only [ScreenCapture.capture]
  rw [if_neg hw, if_pos hmis]
  rfl

theorem captureN_steady (l t r b : ℤ) (hl : l < r) (ht : t < b) (n m : ℕ) :
    captureN allOk (some (l, t, r, b)) n (scA (l, t, r, b), ⟨m, 4, [0, 1, 2, 3], traceA⟩) =
      (scA (l, t, r, b), ⟨m + 2 * n, 4, [0, 1, 2, 3], traceA⟩) := by
  induction n generalizing m with
  | zero => simp [captureN]
  | succ k ih =>
    simp only [captureN]
    rw [steady_capture l t r b hl ht]
    rw [show m + 2 * (k + 1) = m + 2 + 2 * k by ring]
    exact ih (m + 2)

theorem state_after (l t r b : ℤ) (hl : l < r) (ht : t < b) (n : ℕ) :
    captureN allOk (some (l, t, r, b)) (n + 1) (ScreenCapture.new, World.fresh) =
      (scA (l, t, r, b), ⟨8 + 2 * n, 4, [0, 1, 2, 3], traceA⟩) := by
  simp only [captureN]
  rw [first_capture l t r b hl ht]
  exact captureN_steady l t r b hl ht n 8

/-! ## The claims -/

/-- C1: along any sequence of `capture` calls that all pass the same valid
box and in which every native call succeeds, `_initialize_dc` runs exactly
once (the cached session — manager state, outstanding handles and trace —
is literally that of the first call, for every later call); changing the box
causes exactly one release (`_cleanup`) and one rebuild (`_initialize_dc`)
before the next successful capture. -/
theorem C1_session_reuse_and_rebuild :
    ∀ (l t r b l2 t2 r2 b2 : ℤ) (n : ℕ),
      l < r → t < b → l2 < r2 → t2 < b2 →
      ((l, t, r, b) : Rect) ≠ (l2, t2, r2, b2) →
      countInit (captureN allOk (some (l, t, r, b)) (n + 1)
        (ScreenCapture.new, World.fresh)).2.trace = 1 ∧
      (captureN allOk (some (l, t, r, b)) (n + 1)
        (ScreenCapture.new, World.fresh)).1 = scA (l, t, r, b) ∧
      (captureN allOk (some (l, t, r, b)) (n + 1)
        (ScreenCapture.new, World.fresh)).2.trace = wA.trace ∧
      (captureN allOk (some (l, t, r, b)) (n + 1)
        (ScreenCapture.new, World.fresh)).2.outstanding = wA.outstanding ∧
      (ScreenCapture.capture allOk
        (captureN allOk (some (l, t, r, b)) (n + 1) (ScreenCapture.new, World.fresh)).1
        (captureN allOk (some (l, t, r, b)) (n + 1) (ScreenCapture.new, World.fresh)).2
        (some (l2, t2, r2, b2))).1 = some (r2 - l2, b2 - t2) ∧
      countCleanup (ScreenCapture.capture allOk
        (captureN allOk (some (l, t, r, b)) (n + 1) (ScreenCapture.new, World.fresh)).1
        (captureN allOk (some (l, t, r, b)) (n + 1) (ScreenCapture.new, World.fresh)).2
        (some (l2, t2, r2, b2))).2.2.trace =
        countCleanup (captureN allOk (some (l, t, r, b)) (n + 1)
          (ScreenCapture.new, World.fresh)).2.trace + 1 ∧
      countInit (ScreenCapture.capture allOk
        (captureN allOk (some (l, t, r, b)) (n + 1) (ScreenCapture.new, World.fresh)).1
        (captureN allOk (some (l, t, r, b)) (n + 1) (ScreenCapture.new, World.fresh)).2
        (some (l2, t2, r2, b2))).2.2.trace =
        countInit (captureN allOk (some (l, t, r, b)) (n + 1)
          (ScreenCapture.new, World.fresh)).2.trace + 1 := by
  intro l t r b l2 t2 r2 b2 n hl ht hl2 ht2 hne
  rw [state_after l t r b hl ht n]
  rw [switch_capture l t r b l2 t2 r2 b2 (8 + 2 * n) hl2 ht2 hne]
  refine ⟨rfl, rfl, rfl, rfl, rfl, ?_, ?_⟩ <;>
    simp [countCleanup, countInit, traceA, traceB2, List.count_append]

/-- Witness for C1 at the boxes `(0,0,2,1)`, `(0,0,3,1)` and `n = 0`. -/
theorem C1_witness :
    countInit (captureN allOk (some ((0 : ℤ), 0, 2, 1)) (0 + 1)
      (ScreenCapture.new, World.fresh)).2.trace = 1 ∧
    (captureN allOk (some ((0 : ℤ), 0, 2, 1)) (0 + 1)
      (ScreenCapture.new, World.fresh)).1 = scA (0, 0, 2, 1) ∧
    (captureN allOk (some ((0 : ℤ), 0, 2, 1)) (0 + 1)
      (ScreenCapture.new, World.fresh)).2.trace = wA.trace ∧
    (captureN allOk (some ((0 : ℤ), 0, 2, 1)) (0 + 1)
      (ScreenCapture.new, World.fresh)).2.outstanding = wA.outstanding ∧
    (ScreenCapture.capture allOk
      (captureN allOk (some ((0 : ℤ), 0, 2, 1)) (0 + 1) (ScreenCapture.new, World.fresh)).1
      (captureN allOk (some ((0 : ℤ), 0, 2, 1)) (0 + 1) (ScreenCapture.new, World.fresh)).2
      (some (0, 0, 3, 1))).1 = some (3 - 0, 1 - 0) ∧
    countCleanup (ScreenCapture.capture allOk
      (captureN allOk (some ((0 : ℤ), 0, 2, 1)) (0 + 1) (ScreenCapture.new, World.fresh)).1
      (captureN allOk (some ((0 : ℤ), 0, 2, 1)) (0 + 1) (ScreenCapture.new, World.fresh)).2
      (some (0, 0, 3, 1))).2.2.trace =
      countCleanup (captureN allOk (some ((0 : ℤ), 0, 2, 1)) (0 + 1)
        (ScreenCapture.new, World.fresh)).2.trace + 1 ∧
    countInit (ScreenCapture.capture allOk
      (captureN allOk (some ((0 : ℤ), 0, 2, 1)) (0 + 1) (ScreenCapture.new, World.fresh)).1
      (captureN allOk (some ((0 : ℤ), 0, 2, 1)) (0 + 1) (ScreenCapture.new, World.fresh)).2
      (some (0, 0, 3, 1))).2.2.trace =
      countInit (captureN allOk (some ((0 : ℤ), 0, 2, 1)) (0 + 1)
        (ScreenCapture.new, World.fresh)).2.trace + 1 :=
  C1_session_reuse_and_rebuild 0 0 2 1 0 0 3 1 0
    (by decide) (by decide) (by decide) (by decide) (by decide)

/-- C2: for an absent box, or a degenerate one (`right ≤ left` or
`bottom ≤ top`), `capture` returns `none` and both the manager state and the
native world (so in particular the outstanding resources and the trace) are
completely unchanged, under every oracle. -/
theorem C2_degenerate_box_no_effect :
    (∀ (o : Oracle) (sc : ScreenCapture) (w : World),
      ScreenCapture.capture o sc w none = (none, sc, w)) ∧
    (∀ (o : Oracle) (sc : ScreenCapture) (w : World) (l t r b : ℤ),
      r ≤ l ∨ b ≤ t →
      ScreenCapture.capture o sc w (some (l, t, r, b)) = (none, sc, w)) :=
  ⟨capture_absent, fun o sc w l t r b h => capture_degenerate o sc w l t r b h⟩

/-- Witness for C2 at the degenerate box `(3,4,3,9)` (width `0`). -/
theorem C2_witness :
    ScreenCapture.capture allOk ScreenCapture.new World.fresh (some (3, 4, 3, 9)) =
      (none, ScreenCapture.new, World.fresh) :=
  C2_degenerate_box_no_effect.2 allOk ScreenCapture.new World.fresh 3 4 3 9
    (Or.inl (by decide))

/-- An oracle under which the first eight native calls (one full
initialisation and one capture) succeed and every later call fails — so the
first release attempted by the following `_cleanup` raises. -/
def upTo8 : Oracle := fun n => decide (n < 8)

/-- One successful capture of `(0,0,2,1)` followed by `close`, all native
calls succeeding: the resulting world. -/
def c3run : World :=
  (ScreenCapture.close allOk
    (ScreenCapture.capture allOk ScreenCapture.new World.fresh (some (0, 0, 2, 1))).2.1
    (ScreenCapture.capture allOk ScreenCapture.new World.fresh (some (0, 0, 2, 1))).2.2).2

/-- The same run under `upTo8`, so that the first release raises. -/
def c3leak : ScreenCapture × World :=
  ScreenCapture.close upTo8
    (ScreenCapture.capture upTo8 ScreenCapture.new World.fresh (some (0, 0, 2, 1))).2.1
    (ScreenCapture.capture upTo8 ScreenCapture.new World.fresh (some (0, 0, 2, 1))).2.2

/-- C3 counterexample: in a concrete successful capture-then-close run the
handles are acquired in the order window DC, source DC, memory DC, bitmap
but released in the order source DC, memory DC, window DC, bitmap — not the
reverse of acquisition; and when the first release raises, the remaining
three handles (and the one whose release failed) stay outstanding, so an
acquired handle is not released when a release step fails. -/
theorem C3_counterexample :
    acqKinds c3run.trace = [HKind.hwindcK, HKind.srcdcK, HKind.memdcK, HKind.bmpK] ∧
    relKinds c3run.trace = [HKind.srcdcK, HKind.memdcK, HKind.hwindcK, HKind.bmpK] ∧
    relKinds c3run.trace ≠ (acqKinds c3run.trace).reverse ∧
    c3leak.2.outstanding = [0, 1, 2, 3] ∧
    Ev.relFail HKind.srcdcK 1 ∈ c3leak.2.trace := by decide

/-- C3 amended: `_cleanup` always releases in the fixed source order
source DC, memory DC, window DC, bitmap — which is not the reverse of the
acquisition order (window DC, source DC, memory DC, bitmap) — and when a
release step fails, the remaining release steps are skipped (nothing is
removed from the outstanding resources), rather than every acquired handle
being released. -/
theorem C3_amended_cleanup_order :
    ∀ (a c d e : ℕ) (ini : Bool) (lb : Option Rect) (lw lh : ℤ) (w : World),
      (ScreenCapture.cleanup allOk ⟨some a, some c, some d, some e, ini, lb, lw, lh⟩ w).2.trace =
        w.trace ++ [Ev.cleanupEv, Ev.rel HKind.srcdcK c, Ev.rel HKind.memdcK d,
          Ev.rel HKind.hwindcK a, Ev.rel HKind.bmpK e] ∧
      (ScreenCapture.cleanup (failAt w.calls)
        ⟨some a, some c, some d, some e, ini, lb, lw, lh⟩ w).2.trace =
        w.trace ++ [Ev.cleanupEv, Ev.relFail HKind.srcdcK c] ∧
      (ScreenCapture.cleanup (failAt w.calls)
        ⟨some a, some c, some d, some e, ini, lb, lw, lh⟩ w).2.outstanding =
        w.outstanding := by
  intro a c d e ini lb lw lh w
  refine ⟨?_, ?_, ?_⟩ <;>
    simp [ScreenCapture.cleanup, World.relOpt, World.releaseOne, World.step,
      World.addEv, allOk, failAt, List.append_assoc]

/-! ## Helper lemmas: cleanup and close under an always-succeeding double -/

/-- The optional erase performed by one guarded release. -/
def eraseOpt (l : List ℕ) : Option ℕ → List ℕ
  | none => l
  | some h => l.erase h

theorem mem_eraseOpt {x : ℕ} {l : List ℕ} {o : Option ℕ} (h : x ∈ eraseOpt l o) :
    x ∈ l := by
  cases o with
  | none => exact h
  | some a => exact List.mem_of_mem_erase h

theorem eraseOpt_nodup {l : List ℕ} (h : l.Nodup) (o : Option ℕ) :
    (eraseOpt l o).Nodup := by
  cases o with
  | none => exact h
  | some a => exact h.erase a

theorem not_mem_eraseOpt_self {x : ℕ} {l : List ℕ} (h : l.Nodup) :
    x ∉ eraseOpt l (some x) := h.not_mem_erase

theorem cleanup_allOk_sc (sc : ScreenCapture) (w : World) :
    (ScreenCapture.cleanup allOk sc w).1 = { sc with initialized := false } := by
  obtain ⟨a, c, d, e, ini, lb, lw, lh⟩ := sc
  cases a <;> cases c <;> cases d <;> cases e <;>
    simp [ScreenCapture.cleanup, World.relOpt, World.releaseOne, World.step,
      World.addEv, allOk]

theorem cleanup_allOk_outstanding (sc : ScreenCapture) (w : World) :
    (ScreenCapture.cleanup allOk sc w).2.outstanding =
      eraseOpt (eraseOpt (eraseOpt (eraseOpt w.outstanding sc.srcdc) sc.memdc)
        sc.hwindc) sc.bmp := by
  obtain ⟨a, c, d, e, ini, lb, lw, lh⟩ := sc
  cases a <;> cases c <;> cases d <;> cases e <;>
    simp [ScreenCapture.cleanup, World.relOpt, World.releaseOne, World.step,
      World.addEv, allOk, eraseOpt]

/-- A state in which the outstanding native handles are exactly (a subset
of) the handles stored in the manager's fields, without duplicates — true of
every state an all-successful run can reach. -/
def goodState (sc : ScreenCapture) (w : World) : Prop :=
  w.outstanding.Nodup ∧
  ∀ h ∈ w.outstanding,
    some h = sc.hwindc ∨ some h = sc.srcdc ∨ some h = sc.memdc ∨ some h = sc.bmp

instance (sc : ScreenCapture) (w : World) : Decidable (goodState sc w) := by
  unfold goodState; infer_instance

theorem erase_chain_nil (sc : ScreenCapture) (out : List ℕ) (hnd : out.Nodup)
    (hcov : ∀ h ∈ out,
      some h = sc.hwindc ∨ some h = sc.srcdc ∨ some h = sc.memdc ∨ some h = sc.bmp) :
    eraseOpt (eraseOpt (eraseOpt (eraseOpt out sc.srcdc) sc.memdc) sc.hwindc) sc.bmp
      = [] := by
  rw [List.eq_nil_iff_forall_not_mem]
  intro x hx
  have h3 : x ∈ eraseOpt (eraseOpt (eraseOpt out sc.srcdc) sc.memdc) sc.hwindc :=
    mem_eraseOpt hx
  have h2 : x ∈ eraseOpt (eraseOpt out sc.srcdc) sc.memdc := mem_eraseOpt h3
  have h1 : x ∈ eraseOpt out sc.srcdc := mem_eraseOpt h2
  have h0 : x ∈ out := mem_eraseOpt h1
  have nd1 : (eraseOpt out sc.srcdc).Nodup := eraseOpt_nodup hnd _
  have nd2 : (eraseOpt (eraseOpt out sc.srcdc) sc.memdc).Nodup := eraseOpt_nodup nd1 _
  have nd3 : (eraseOpt (eraseOpt (eraseOpt out sc.srcdc) sc.memdc) sc.hwindc).Nodup :=
    eraseOpt_nodup nd2 _
  rcases hcov x h0 with hh | hh | hh | hh
  · rw [← hh] at h3
    exact not_mem_eraseOpt_self nd2 h3
  · rw [← hh] at h1
    exact not_mem_eraseOpt_self hnd h1
  · rw [← hh] at h2
    exact not_mem_eraseOpt_self nd1 h2
  · rw [← hh] at hx
    exact not_mem_eraseOpt_self nd3 hx

theorem close_allOk_good (sc : ScreenCapture) (w : World) (h : goodState sc w) :
    (ScreenCapture.close allOk sc w).1 = { sc with initialized := false } ∧
    (ScreenCapture.close allOk sc w).2.outstanding = [] := by
  refine ⟨cleanup_allOk_sc sc w, ?_⟩
  rw [ScreenCapture.close, cleanup_allOk_outstanding]
  exact erase_chain_nil sc w.outstanding h.1 h.2

theorem goodState_close (sc : ScreenCapture) (w : World) (h : goodState sc w) :
    goodState (ScreenCapture.close allOk sc w).1 (ScreenCapture.close allOk sc w).2 := by
  constructor
  · rw [(close_allOk_good sc w h).2]
    exact List.nodup_nil
  · rw [(close_allOk_good sc w h).2]
    intro x hx
    exact absurd hx (List.not_mem_nil x)

/-- C4: modelling the native layer by an always-succeeding resource-counting
double, `close()` — which, in the embedding, is a total function, so it
never raises to the caller — leaves zero native resources outstanding after
any positive number of repeated calls, from any state whose outstanding
handles are those the manager's fields track (in particular from a fresh
instance, where nothing was ever acquired), and leaves the manager
uninitialized. -/
theorem C4_close_idempotent_releases_all :
    ∀ (n : ℕ) (sc : ScreenCapture) (w : World), goodState sc w →
      (closeN allOk (n + 1) (sc, w)).2.outstanding = [] ∧
      (closeN allOk (n + 1) (sc, w)).1.initialized = false := by
  intro n
  induction n with
  | zero =>
    intro sc w h
    simp only [closeN]
    refine ⟨(close_allOk_good sc w h).2, ?_⟩
    rw [(close_allOk_good sc w h).1]
  | succ k ih =>
    intro sc w h
    simp only [closeN]
    exact ih (ScreenCapture.close allOk sc w).1 (ScreenCapture.close allOk sc w).2
      (goodState_close sc w h)

/-- Witness for C4: two `close` calls on a live session with handles
`0`–`3`, and one `close` on a fresh instance. -/
theorem C4_witness :
    (closeN allOk 2 (scA (0, 0, 2, 1), wA)).2.outstanding = [] ∧
    (closeN allOk 2 (scA (0, 0, 2, 1), wA)).1.initialized = false ∧
    (closeN allOk 1 (ScreenCapture.new, World.fresh)).2.outstanding = [] :=
  ⟨(C4_close_idempotent_releases_all 1 (scA (0, 0, 2, 1)) wA (by decide)).1,
   (C4_close_idempotent_releases_all 1 (scA (0, 0, 2, 1)) wA (by decide)).2,
   (C4_close_idempotent_releases_all 0 ScreenCapture.new World.fresh (by decide)).1⟩

/-! ## Helper lemmas: failure of blit/readback on an arbitrary live session -/

/-- An arbitrary initialized session for `box` holding handles
`a, c, d, e`. -/
def scSession (box : Rect) (a c d e : ℕ) : ScreenCapture :=
  ⟨some a, some c, some d, some e, true, some box, box.2.2.1 - box.1, box.2.2.2 - box.2.1⟩

/-- The same session after it has been invalidated by a failure. -/
def scSessionOff (box : Rect) (a c d e : ℕ) : ScreenCapture :=
  ⟨some a, some c, some d, some e, false, some box, box.2.2.1 - box.1, box.2.2.2 - box.2.1⟩

theorem captureBlit_fail_first (box : Rect) (a c d e : ℕ) (w : World) (width height : ℤ) :
    ScreenCapture.captureBlit (failAt w.calls) (scSession box a c d e) w width height =
      (none, scSessionOff box a c d e,
        ⟨w.calls + 5, w.nextH,
          (((w.outstanding.erase c).erase d).erase a).erase e,
          w.trace ++ [Ev.cleanupEv, Ev.rel HKind.srcdcK c, Ev.rel HKind.memdcK d,
            Ev.rel HKind.hwindcK a, Ev.rel HKind.bmpK e]⟩) := by
  have o0 : failAt w.calls w.calls = false := by simp [failAt]
  have o1 : failAt w.calls (w.calls + 1) = true := by
    simp only [failAt, bne_iff_ne, ne_eq]; omega
  have o2 : failAt w.calls (w.calls + 1 + 1) = true := by
    simp only [failAt, bne_iff_ne, ne_eq]; omega
  have o3 : failAt w.calls (w.calls + 1 + 1 + 1) = true := by
    simp only [failAt, bne_iff_ne, ne_eq]; omega
  have o4 : failAt w.calls (w.calls + 1 + 1 + 1 + 1) = true := by
    simp only [failAt, bne_iff_ne, ne_eq]; omega
  simp [ScreenCapture.captureBlit, ScreenCapture.cleanup, World.relOpt,
    World.releaseOne, World.step, World.addEv, scSession, scSessionOff,
    o0, o1, o2, o3, o4, List.append_assoc]

theorem captureBlit_fail_second (box : Rect) (a c d e : ℕ) (w : World) (width height : ℤ) :
    ScreenCapture.captureBlit (failAt (w.calls + 1)) (scSession box a c d e) w width height =
      (none, scSessionOff box a c d e,
        ⟨w.calls + 6, w.nextH,
          (((w.outstanding.erase c).erase d).erase a).erase e,
          w.trace ++ [Ev.cleanupEv, Ev.rel HKind.srcdcK c, Ev.rel HKind.memdcK d,
            Ev.rel HKind.hwindcK a, Ev.rel HKind.bmpK e]⟩) := by
  have o0 : failAt (w.calls + 1) w.calls = true := by
    simp only [failAt, bne_iff_ne, ne_eq]; omega
  have o1 : failAt (w.calls + 1) (w.calls + 1) = false := by simp [failAt]
  have o2 : failAt (w.calls + 1) (w.calls + 1 + 1) = true := by
    simp only [failAt, bne_iff_ne, ne_eq]; omega
  have o3 : failAt (w.calls + 1) (w.calls + 1 + 1 + 1) = true := by
    simp only [failAt, bne_iff_ne, ne_eq]; omega
  have o4 : failAt (w.calls + 1) (w.calls + 1 + 1 + 1 + 1) = true := by
    simp only [failAt, bne_iff_ne, ne_eq]; omega
  have o5 : failAt (w.calls + 1) (w.calls + 1 + 1 + 1 + 1 + 1) = true := by
    simp only [failAt, bne_iff_ne, ne_eq]; omega
  simp [ScreenCapture.captureBlit, ScreenCapture.cleanup, World.relOpt,
    World.releaseOne, World.step, World.addEv, scSession, scSessionOff,
    o0, o1, o2, o3, o4, o5, List.append_assoc]

theorem steady_capture_oracle (o : Oracle) (l t r b : ℤ) (a c d e : ℕ)
    (hl : l < r) (ht : t < b) (w : World) :
    ScreenCapture.capture o (scSession (l, t, r, b) a c d e) w (some (l, t, r, b)) =
      ScreenCapture.captureBlit o (scSession (l, t, r, b) a c d e) w (r - l) (b - t) := by
  have hw : ¬(r - l ≤ 0 ∨ b - t ≤ 0) := by omega
  have hmis : ¬((scSession (l, t, r, b) a c d e).last_bbox ≠ some (l, t, r, b) ∨
      (scSession (l, t, r, b) a c d e).initialized = false ∨
      r - l ≠ (scSession (l, t, r, b) a c d e).last_width ∨
      b - t ≠ (scSession (l, t, r, b) a c d e).last_height) := by
    simp [scSession]
  simp only [ScreenCapture.capture]
  rw [if_neg hw, if_neg hmis]
  rfl

theorem rebuild_capture_general (l t r b : ℤ) (a c d e : ℕ) (w : World)
    (hl : l < r) (ht : t < b) :
    ScreenCapture.capture allOk (scSessionOff (l, t, r, b) a c d e) w (some (l, t, r, b)) =
      (some (r - l, b - t),
        ⟨some w.nextH, some (w.nextH + 1), some (w.nextH + 2), some (w.nextH + 3),
          true, some (l, t, r, b), r - l, b - t⟩,
        ⟨w.calls + 12, w.nextH + 4,
          ((((w.outstanding.erase c).erase d).erase a).erase e) ++
            [w.nextH, w.nextH + 1, w.nextH + 2, w.nextH + 3],
          w.trace ++ [Ev.cleanupEv, Ev.rel HKind.srcdcK c, Ev.rel HKind.memdcK d,
            Ev.rel HKind.hwindcK a, Ev.rel HKind.bmpK e, Ev.initEv,
            Ev.acq HKind.hwindcK w.nextH, Ev.acq HKind.srcdcK (w.nextH + 1),
            Ev.acq HKind.memdcK (w.nextH + 2), Ev.acq HKind.bmpK (w.nextH + 3)]⟩) := by
  have hw : ¬(r - l ≤ 0 ∨ b - t ≤ 0) := by omega
  have hmis : (scSessionOff (l, t, r, b) a c d e).last_bbox ≠ some (l, t, r, b) ∨
      (scSessionOff (l, t, r, b) a c d e).initialized = false ∨
      r - l ≠ (scSessionOff (l, t, r, b) a c d e).last_width ∨
      b - t ≠ (scSessionOff (l, t, r, b) a c d e).last_height := Or.inr (Or.inl rfl)
  simp only [ScreenCapture.capture]
  rw [if_neg hw, if_pos hmis]
  simp [ScreenCapture.cleanup, ScreenCapture.initialize_dc, ScreenCapture.captureBlit,
    World.relOpt, World.releaseOne, World.acquire, World.step, World.addEv,
    scSessionOff, allOk, List.append_assoc]

/-- C5: from any initialized session (arbitrary handles `a,c,d,e`, arbitrary
world whose outstanding handles are the session's), if the blit (native call
`w.calls`) or the pixel readback (native call `w.calls + 1`) fails, `capture`
returns `none` — in the embedding `capture` is a total function, so no error
propagates — releases all the session's native resources (outstanding
becomes empty) and leaves the manager uninitialized; the next `capture` call
with the same valid box then rebuilds the session from scratch (one more
`_initialize_dc` entry in the trace) and succeeds. -/
theorem C5_blit_readback_failure_self_healing :
    ∀ (l t r b : ℤ) (a c d e : ℕ) (w : World), l < r → t < b →
      goodState (scSession (l, t, r, b) a c d e) w →
      (ScreenCapture.capture (failAt w.calls) (scSession (l, t, r, b) a c d e) w
        (some (l, t, r, b))).1 = none ∧
      (ScreenCapture.capture (failAt w.calls) (scSession (l, t, r, b) a c d e) w
        (some (l, t, r, b))).2.1.initialized = false ∧
      (ScreenCapture.capture (failAt w.calls) (scSession (l, t, r, b) a c d e) w
        (some (l, t, r, b))).2.2.outstanding = [] ∧
      (ScreenCapture.capture (failAt (w.calls + 1)) (scSession (l, t, r, b) a c d e) w
        (some (l, t, r, b))).1 = none ∧
      (ScreenCapture.capture (failAt (w.calls + 1)) (scSession (l, t, r, b) a c d e) w
        (some (l, t, r, b))).2.1.initialized = false ∧
      (ScreenCapture.capture (failAt (w.calls + 1)) (scSession (l, t, r, b) a c d e) w
        (some (l, t, r, b))).2.2.outstanding = [] ∧
      (ScreenCapture.capture allOk
        (ScreenCapture.capture (failAt w.calls) (scSession (l, t, r, b) a c d e) w
          (some (l, t, r, b))).2.1
        (ScreenCapture.capture (failAt w.calls) (scSession (l, t, r, b) a c d e) w
          (some (l, t, r, b))).2.2
        (some (l, t, r, b))).1 = some (r - l, b - t) ∧
      (ScreenCapture.capture allOk
        (ScreenCapture.capture (failAt w.calls) (scSession (l, t, r, b) a c d e) w
          (some (l, t, r, b))).2.1
        (ScreenCapture.capture (failAt w.calls) (scSession (l, t, r, b) a c d e) w
          (some (l, t, r, b))).2.2
        (some (l, t, r, b))).2.1.initialized = true ∧
      countInit (ScreenCapture.capture allOk
        (ScreenCapture.capture (failAt w.calls) (scSession (l, t, r, b) a c d e) w
          (some (l, t, r, b))).2.1
        (ScreenCapture.capture (failAt w.calls) (scSession (l, t, r, b) a c d e) w
          (some (l, t, r, b))).2.2
        (some (l, t, r, b))).2.2.trace = countInit w.trace + 1 := by
  intro l t r b a c d e w hl ht hg
  have hb1 := steady_capture_oracle (failAt w.calls) l t r b a c d e hl ht w
  rw [captureBlit_fail_first] at hb1
  have hb2 := steady_capture_oracle (failAt (w.calls + 1)) l t r b a c d e hl ht w
  rw [captureBlit_fail_second] at hb2
  have herase : (((w.outstanding.erase c).erase d).erase a).erase e = [] :=
    erase_chain_nil (scSession (l, t, r, b) a c d e) w.outstanding hg.1 hg.2
  have hr := rebuild_capture_general l t r b a c d e
    ⟨w.calls + 5, w.nextH, (((w.outstanding.erase c).erase d).erase a).erase e,
      w.trace ++ [Ev.cleanupEv, Ev.rel HKind.srcdcK c, Ev.rel HKind.memdcK d,
        Ev.rel HKind.hwindcK a, Ev.rel HKind.bmpK e]⟩ hl ht
  rw [hb1, hb2]
  refine ⟨rfl, rfl, herase, rfl, rfl, herase, ?_, ?_, ?_⟩ <;>
    rw [show ((none : Option Frame), scSessionOff (l, t, r, b) a c d e,
        (⟨w.calls + 5, w.nextH, (((w.outstanding.erase c).erase d).erase a).erase e,
          w.trace ++ [Ev.cleanupEv, Ev.rel HKind.srcdcK c, Ev.rel HKind.memdcK d,
            Ev.rel HKind.hwindcK a, Ev.rel HKind.bmpK e]⟩ : World)).2.1 =
        scSessionOff (l, t, r, b) a c d e from rfl] <;>
    rw [show ((none : Option Frame), scSessionOff (l, t, r, b) a c d e,
        (⟨w.calls + 5, w.nextH, (((w.outstanding.erase c).erase d).erase a).erase e,
          w.trace ++ [Ev.cleanupEv, Ev.rel HKind.srcdcK c, Ev.rel HKind.memdcK d,
            Ev.rel HKind.hwindcK a, Ev.rel HKind.bmpK e]⟩ : World)).2.2 =
        ⟨w.calls + 5, w.nextH, (((w.outstanding.erase c).erase d).erase a).erase e,
          w.trace ++ [Ev.cleanupEv, Ev.rel HKind.srcdcK c, Ev.rel HKind.memdcK d,
            Ev.rel HKind.hwindcK a, Ev.rel HKind.bmpK e]⟩ from rfl] <;>
    rw [hr]
  simp [countInit, List.count_append, List.count_cons]

/-- Witness for C5: the session with handles `0`–`3` for box `(0,0,2,1)` in
the world `wA`, whose blit call is native call `8`. -/
theorem C5_witness :
    (ScreenCapture.capture (failAt wA.calls) (scSession (0, 0, 2, 1) 0 1 2 3) wA
      (some (0, 0, 2, 1))).1 = none ∧
    (ScreenCapture.capture (failAt wA.calls) (scSession (0, 0, 2, 1) 0 1 2 3) wA
      (some (0, 0, 2, 1))).2.2.outstanding = [] ∧
    (ScreenCapture.capture allOk
      (ScreenCapture.capture (failAt wA.calls) (scSession (0, 0, 2, 1) 0 1 2 3) wA
        (some (0, 0, 2, 1))).2.1
      (ScreenCapture.capture (failAt wA.calls) (scSession (0, 0, 2, 1) 0 1 2 3) wA
        (some (0, 0, 2, 1))).2.2
      (some (0, 0, 2, 1))).1 = some (2 - 0, 1 - 0) :=
  ⟨(C5_blit_readback_failure_self_healing 0 0 2 1 0 1 2 3 wA
      (by decide) (by decide) (by decide)).1,
   (C5_blit_readback_failure_self_healing 0 0 2 1 0 1 2 3 wA
      (by decide) (by decide) (by decide)).2.2.1,
   (C5_blit_readback_failure_self_healing 0 0 2 1 0 1 2 3 wA
      (by decide) (by decide) (by decide)).2.2.2.2.2.2.1⟩

theorem tick_cold (N : ℕ) (t : ℚ) :
    PerformanceMonitor.tick (PerformanceMonitor.new N) t = ⟨N, [], some t⟩ := rfl

theorem tick_warm (pm : PerformanceMonitor) (t lt : ℚ) (h : pm.last_time = some lt) :
    (pm.tick t).last_time = some t ∧
    (pm.frame_times.length < pm.window_size →
      (pm.tick t).frame_times = pm.frame_times ++ [t - lt]) ∧
    (pm.frame_times.length = pm.window_size →
      (pm.tick t).frame_times = (pm.frame_times ++ [t - lt]).tail) := by
  obtain ⟨N, ft, o⟩ := pm
  cases o with
  | none => exact absurd h (by simp)
  | some x =>
    have hx : x = lt := by simpa using h
    subst hx
    refine ⟨rfl, ?_, ?_⟩
    · intro hlen
      simp only [PerformanceMonitor.tick, List.length_append, List.length_cons,
        List.length_nil]
      rw [if_neg (by simp at hlen ⊢; omega)]
    · intro hlen
      simp only [PerformanceMonitor.tick, List.length_append, List.length_cons,
        List.length_nil]
      rw [if_pos (by simp at hlen ⊢; omega)]

theorem tick_length_le (pm : PerformanceMonitor) (t : ℚ)
    (h : pm.frame_times.length ≤ pm.window_size) :
    (pm.tick t).frame_times.length ≤ pm.window_size := by
  obtain ⟨N, ft, o⟩ := pm
  cases o with
  | none => simpa using h
  | some x =>
    simp only [PerformanceMonitor.tick]
    split_ifs with hc
    · simp only [List.length_tail, List.length_append, List.length_cons, List.length_nil]
      simp at h ⊢
      omega
    · simp at h hc ⊢
      omega

theorem tick_window_size (pm : PerformanceMonitor) (t : ℚ) :
    (pm.tick t).window_size = pm.window_size := by
  obtain ⟨N, ft, o⟩ := pm
  cases o <;> rfl

theorem foldl_tick_length (ts : List ℚ) (pm : PerformanceMonitor)
    (h : pm.frame_times.length ≤ pm.window_size) :
    (ts.foldl PerformanceMonitor.tick pm).frame_times.length ≤ pm.window_size := by
  induction ts generalizing pm with
  | nil => simpa using h
  | cons a as ih =>
    simp only [List.foldl_cons]
    have h3 : (pm.tick a).frame_times.length ≤ (pm.tick a).window_size := by
      rw [tick_window_size]
      exact tick_length_le pm a h
    have h4 := ih (pm.tick a) h3
    rw [tick_window_size] at h4
    exact h4

/-- C6: the first `tick` on a fresh monitor records only the timestamp and
appends no sample; every later tick appends exactly one sample, the elapsed
time since the previous tick (evicting the front — oldest — sample when the
window is full), and after any sequence of ticks the stored sample sequence
never exceeds the window size `N`. -/
theorem C6_tick_window_fifo :
    (∀ (N : ℕ) (t : ℚ),
      PerformanceMonitor.tick (PerformanceMonitor.new N) t = ⟨N, [], some t⟩) ∧
    (∀ (pm : PerformanceMonitor) (t lt : ℚ), pm.last_time = some lt →
      (pm.tick t).last_time = some t ∧
      (pm.frame_times.length < pm.window_size →
        (pm.tick t).frame_times = pm.frame_times ++ [t - lt]) ∧
      (pm.frame_times.length = pm.window_size →
        (pm.tick t).frame_times = (pm.frame_times ++ [t - lt]).tail)) ∧
    (∀ (N : ℕ) (ts : List ℚ),
      (ts.foldl PerformanceMonitor.tick (PerformanceMonitor.new N)).frame_times.length
        ≤ N) :=
  ⟨tick_cold, tick_warm,
   fun N ts => foldl_tick_length ts (PerformanceMonitor.new N)
     (by simp [PerformanceMonitor.new])⟩

/-- Witness for C6: a full window of size 1 at a tick from time `2` to `3`. -/
theorem C6_witness :
    (PerformanceMonitor.tick ⟨1, [(5 : ℚ)], some 2⟩ 3).last_time = some 3 ∧
    (PerformanceMonitor.tick ⟨1, [(5 : ℚ)], some 2⟩ 3).frame_times = [(1 : ℚ)] := by
  have h := C6_tick_window_fifo.2.1 ⟨1, [(5 : ℚ)], some 2⟩ 3 2 rfl
  refine ⟨h.1, ?_⟩
  rw [h.2.2 rfl]
  norm_num

/-- C7: `get_fps` and `get_frame_time_ms` return `0` whenever the sample
sequence is empty; otherwise (for the nonnegative samples produced by a
monotone clock) they return the reciprocal of the mean sample and the mean
sample in milliseconds; with window size 3 and recorded gaps 10ms, 20ms,
30ms, 40ms the mean is over the last three gaps — 30ms, i.e. 100/3 ≈ 33.3
frames per second. -/
theorem C7_fps_frame_time_mean :
    (∀ pm : PerformanceMonitor, pm.frame_times = [] →
      pm.get_fps = 0 ∧ pm.get_frame_time_ms = 0) ∧
    (∀ pm : PerformanceMonitor, pm.frame_times ≠ [] →
      (∀ x ∈ pm.frame_times, 0 ≤ x) →
      pm.get_fps = 1 / (pm.frame_times.sum / (pm.frame_times.length : ℚ)) ∧
      pm.get_frame_time_ms = (pm.frame_times.sum / (pm.frame_times.length : ℚ)) * 1000) ∧
    ((([0, 10 / 1000, 30 / 1000, 60 / 1000, 100 / 1000] : List ℚ).foldl
        PerformanceMonitor.tick (PerformanceMonitor.new 3)).frame_times =
      [20 / 1000, 30 / 1000, 40 / 1000] ∧
    (([0, 10 / 1000, 30 / 1000, 60 / 1000, 100 / 1000] : List ℚ).foldl
        PerformanceMonitor.tick (PerformanceMonitor.new 3)).get_fps = 100 / 3 ∧
    (([0, 10 / 1000, 30 / 1000, 60 / 1000, 100 / 1000] : List ℚ).foldl
        PerformanceMonitor.tick (PerformanceMonitor.new 3)).get_frame_time_ms = 30) := by
  refine ⟨?_, ?_, ?_⟩
  · intro pm h
    constructor <;>
      simp [PerformanceMonitor.get_fps, PerformanceMonitor.get_frame_time_ms, h]
  · intro pm h hnn
    have hsum : 0 ≤ pm.frame_times.sum := List.sum_nonneg hnn
    have hlen : (0 : ℚ) < (pm.frame_times.length : ℚ) := by
      have hp : 0 < pm.frame_times.length := List.length_pos.mpr h
      exact_mod_cast hp
    have havg : 0 ≤ pm.frame_times.sum / (pm.frame_times.length : ℚ) :=
      div_nonneg hsum hlen.le
    constructor
    · simp only [PerformanceMonitor.get_fps]
      rw [if_neg h]
      rcases havg.lt_or_eq with hpos | hzero
      · rw [if_pos hpos]
      · rw [if_neg (by rw [← hzero]; exact lt_irrefl 0), ← hzero]
        norm_num
    · simp only [PerformanceMonitor.get_frame_time_ms]
      rw [if_neg h]
  · norm_num [List.foldl, PerformanceMonitor.tick, PerformanceMonitor.new,
      PerformanceMonitor.get_fps, PerformanceMonitor.get_frame_time_ms]
    simp

/-- Witness for C7: a single sample of 2 seconds. -/
theorem C7_witness :
    PerformanceMonitor.get_fps ⟨3, [(2 : ℚ)], some 0⟩ = 1 / 2 ∧
    PerformanceMonitor.get_frame_time_ms ⟨3, [(2 : ℚ)], some 0⟩ = 2000 := by
  have h := C7_fps_frame_time_mean.2.1 ⟨3, [(2 : ℚ)], some 0⟩ (by decide)
    (by intro x hx; rw [List.mem_singleton] at hx; rw [hx]; norm_num)
  constructor
  · rw [h.1]; norm_num
  · rw [h.2]; norm_num

/-- C10: with samples present, `get_fps` is totally defined: when the mean
frame time is `0` (in particular when every sample is `0`) it returns `0`
rather than dividing by zero, and the reciprocal branch is taken only when
the mean is strictly positive (whenever `get_fps` is not `0`, the mean was
strictly positive). -/
theorem C10_get_fps_total_guard :
    ∀ pm : PerformanceMonitor, pm.frame_times ≠ [] →
      ((∀ x ∈ pm.frame_times, x = 0) → pm.get_fps = 0) ∧
      (pm.frame_times.sum / (pm.frame_times.length : ℚ) = 0 → pm.get_fps = 0) ∧
      (0 < pm.frame_times.sum / (pm.frame_times.length : ℚ) →
        pm.get_fps = 1 / (pm.frame_times.sum / (pm.frame_times.length : ℚ))) ∧
      (pm.get_fps = 0 ∨ 0 < pm.frame_times.sum / (pm.frame_times.length : ℚ)) := by
  intro pm h
  refine ⟨?_, ?_, ?_, ?_⟩
  · intro hz
    have hs : pm.frame_times.sum = 0 := List.sum_eq_zero hz
    simp only [PerformanceMonitor.get_fps]
    rw [if_neg h, hs]
    norm_num
  · intro hz
    simp only [PerformanceMonitor.get_fps]
    rw [if_neg h, if_neg (by rw [hz]; exact lt_irrefl 0)]
  · intro hp
    simp only [PerformanceMonitor.get_fps]
    rw [if_neg h, if_pos hp]
  · by_cases hp : 0 < pm.frame_times.sum / (pm.frame_times.length : ℚ)
    · exact Or.inr hp
    · left
      simp only [PerformanceMonitor.get_fps]
      rw [if_neg h, if_neg hp]

/-- Witness for C10: one all-zero sample. -/
theorem C10_witness :
    PerformanceMonitor.get_fps ⟨3, [(0 : ℚ)], some 0⟩ = 0 :=
  (C10_get_fps_total_guard ⟨3, [(0 : ℚ)], some 0⟩ (by decide)).1
    (by intro x hx; simpa using hx)

/-- Two rectangles overlap with positive area: some point (with rational
coordinates) lies strictly inside both. -/
def overlapsPositively (A B : Rect) : Prop :=
  ∃ x y : ℚ,
    ((A.1 : ℚ) < x ∧ x < (A.2.2.1 : ℚ) ∧ (A.2.1 : ℚ) < y ∧ y < (A.2.2.2 : ℚ)) ∧
    ((B.1 : ℚ) < x ∧ x < (B.2.2.1 : ℚ) ∧ (B.2.1 : ℚ) < y ∧ y < (B.2.2.2 : ℚ))

theorem overlapsPositively_iff (l1 t1 r1 b1 l2 t2 r2 b2 : ℤ) :
    overlapsPositively (l1, t1, r1, b1) (l2, t2, r2, b2) ↔
      (max l1 l2 < min r1 r2 ∧ max t1 t2 < min b1 b2) := by
  constructor
  · rintro ⟨x, y, ⟨a1, a2, a3, a4⟩, b5, b6, b7, b8⟩
    have g1 : l1 < r1 := by exact_mod_cast a1.trans a2
    have g2 : l1 < r2 := by exact_mod_cast a1.trans b6
    have g3 : l2 < r1 := by exact_mod_cast b5.trans a2
    have g4 : l2 < r2 := by exact_mod_cast b5.trans b6
    have g5 : t1 < b1 := by exact_mod_cast a3.trans a4
    have g6 : t1 < b2 := by exact_mod_cast a3.trans b8
    have g7 : t2 < b1 := by exact_mod_cast b7.trans a4
    have g8 : t2 < b2 := by exact_mod_cast b7.trans b8
    constructor
    · rw [max_lt_iff, lt_min_iff, lt_min_iff]
      exact ⟨⟨g1, g2⟩, g3, g4⟩
    · rw [max_lt_iff, lt_min_iff, lt_min_iff]
      exact ⟨⟨g5, g6⟩, g7, g8⟩
  · rintro ⟨hx, hy⟩
    have hmx : ((max l1 l2 : ℤ) : ℚ) < ((min r1 r2 : ℤ) : ℚ) := by exact_mod_cast hx
    have hmy : ((max t1 t2 : ℤ) : ℚ) < ((min b1 b2 : ℤ) : ℚ) := by exact_mod_cast hy
    have e1 : (l1 : ℚ) ≤ ((max l1 l2 : ℤ) : ℚ) := by exact_mod_cast le_max_left l1 l2
    have e2 : (l2 : ℚ) ≤ ((max l1 l2 : ℤ) : ℚ) := by exact_mod_cast le_max_right l1 l2
    have e3 : ((min r1 r2 : ℤ) : ℚ) ≤ (r1 : ℚ) := by exact_mod_cast min_le_left r1 r2
    have e4 : ((min r1 r2 : ℤ) : ℚ) ≤ (r2 : ℚ) := by exact_mod_cast min_le_right r1 r2
    have f1 : (t1 : ℚ) ≤ ((max t1 t2 : ℤ) : ℚ) := by exact_mod_cast le_max_left t1 t2
    have f2 : (t2 : ℚ) ≤ ((max t1 t2 : ℤ) : ℚ) := by exact_mod_cast le_max_right t1 t2
    have f3 : ((min b1 b2 : ℤ) : ℚ) ≤ (b1 : ℚ) := by exact_mod_cast min_le_left b1 b2
    have f4 : ((min b1 b2 : ℤ) : ℚ) ≤ (b2 : ℚ) := by exact_mod_cast min_le_right b1 b2
    refine ⟨(((max l1 l2 : ℤ) : ℚ) + ((min r1 r2 : ℤ) : ℚ)) / 2,
      (((max t1 t2 : ℤ) : ℚ) + ((min b1 b2 : ℤ) : ℚ)) / 2,
      ⟨?_, ?_, ?_, ?_⟩, ?_, ?_, ?_, ?_⟩ <;> linarith

/-- C8: `rect_intersection` is commutative, and it returns `none` exactly
when the two rectangles do not overlap with positive area — both in the
sense of the computed overlap region failing `left < right` and
`top < bottom`, and in the sense that no point with rational coordinates
lies strictly inside both rectangles. -/
theorem C8_intersection_comm_none_iff :
    ∀ A B : Rect,
      rect_intersection A B = rect_intersection B A ∧
      (rect_intersection A B = none ↔
        ¬(max A.1 B.1 < min A.2.2.1 B.2.2.1 ∧ max A.2.1 B.2.1 < min A.2.2.2 B.2.2.2)) ∧
      (rect_intersection A B = none ↔ ¬overlapsPositively A B) := by
  rintro ⟨l1, t1, r1, b1⟩ ⟨l2, t2, r2, b2⟩
  refine ⟨?_, ?_, ?_⟩
  · simp only [rect_intersection]
    rw [max_comm l2 l1, max_comm t2 t1, min_comm r2 r1, min_comm b2 b1]
  · simp only [rect_intersection]
    split_ifs with h
    · exact iff_of_false (by simp) (not_not_intro h)
    · exact iff_of_true rfl h
  · rw [overlapsPositively_iff]
    simp only [rect_intersection]
    split_ifs with h
    · exact iff_of_false (by simp) (not_not_intro h)
    · exact iff_of_true rfl h

/-- C9: for every query result and every rectangle, `clamp_rect_to_screen`
returns coordinates with `left ≥ 0`, `top ≥ 0`, `right ≤ screen width` and
`bottom ≤ screen height`; but the result need not be a valid capture box:
the rectangle `(-100,-50,-10,-5)`, lying wholly left of `x = 0`, clamps
(under the fallback resolution) to `(0,0,-10,-5)` with `right < left`, and
feeding that clamped rectangle to `capture` yields `none` (with no change
of state), under every oracle and from every manager state. -/
theorem C9_clamp_bounds_may_degenerate :
    (∀ (q : Option (ℤ × ℤ)) (rect : Rect),
      0 ≤ (clamp_rect_to_screen q rect).1 ∧
      0 ≤ (clamp_rect_to_screen q rect).2.1 ∧
      (clamp_rect_to_screen q rect).2.2.1 ≤ (get_screen_resolution q).1 ∧
      (clamp_rect_to_screen q rect).2.2.2 ≤ (get_screen_resolution q).2) ∧
    clamp_rect_to_screen none (-100, -50, -10, -5) = (0, 0, -10, -5) ∧
    (clamp_rect_to_screen none (-100, -50, -10, -5)).2.2.1 <
      (clamp_rect_to_screen none (-100, -50, -10, -5)).1 ∧
    (∀ (o : Oracle) (sc : ScreenCapture) (w : World),
      ScreenCapture.capture o sc w
        (some (clamp_rect_to_screen none (-100, -50, -10, -5))) = (none, sc, w)) := by
  refine ⟨?_, by decide, by decide, ?_⟩
  · intro q rect
    exact ⟨le_max_left 0 rect.1, le_max_left 0 rect.2.1,
      min_le_left (get_screen_resolution q).1 rect.2.2.1,
      min_le_left (get_screen_resolution q).2 rect.2.2.2⟩
  · intro o sc w
    exact capture_degenerate o sc w 0 0 (-10) (-5) (Or.inl (by decide))
